import Mathlib

/-!
Verification of the v1cli identifier-resolution, schema-detection and
table-rendering core, shallowly embedded from the Python sources
(`v1cli/config/settings.py`, `v1cli/config/schema_detector.py`,
`v1cli/display.py`).

Python strings are modelled as `List Char` (ASCII is all the code ever
handles); Python `None`-returning lookups are modelled with `Option`.
Python mutates bookmark objects in place; since `get_bookmark` returns a
reference into the bookmark list, the embedding first computes the *index*
the Python code would select (`get_bookmark_idx`) and defines
`get_bookmark` as the lookup of that index, which is exactly the object
the Python function returns.
-/

namespace V1cli

/-- Python `str` modelled as a list of characters. -/
abbrev PyStr := List Char

/-- Convert a Lean string literal to the `PyStr` model. -/
def pys (s : String) : PyStr := s.toList

/-- Python `s.lower()` (ASCII). -/
def pyLower (s : PyStr) : PyStr := s.map Char.toLower

/-- Python `s.isdigit()` for ASCII strings: non-empty and all digits. -/
def pyIsDigit (s : PyStr) : Bool := !s.isEmpty && s.all Char.isDigit

/-- Python `s.isalpha()` for ASCII strings: non-empty and all letters. -/
def pyIsAlpha (s : PyStr) : Bool := !s.isEmpty && s.all Char.isAlpha

/-- Python `int(s)` on an all-digit string: decimal value. -/
def pyInt (s : PyStr) : Nat := s.foldl (fun n c => n * 10 + (c.toNat - 48)) 0

/-- Python `s.lstrip("0") or "0"`: strip leading zeros, empty becomes "0". -/
def pyLstrip0 (s : PyStr) : PyStr :=
  let t := s.dropWhile (· == '0')
  if t.isEmpty then ['0'] else t

/-- Python `s.split(sep)` for a one-character separator: always returns at
least one (possibly empty) segment, empty segments between adjacent
separators are kept. -/
def pySplit (sep : Char) : PyStr → List PyStr
  | [] => [[]]
  | c :: cs =>
    let r := pySplit sep cs
    if c == sep then [] :: r
    else
      match r with
      | [] => [[c]]
      | h :: t => (c :: h) :: t

/-- Python `split(...)[0]`: `split` never returns an empty list, so the
default is never used. -/
def pyHead (l : List PyStr) : PyStr := l.headD []

/-- Python `split(...)[-1]`: `split` never returns an empty list, so the
default is never used. -/
def pyLast (l : List PyStr) : PyStr := l.getLastD []

/-- Python `c in s` for a one-character needle. -/
def pyContainsChar (c : Char) (s : PyStr) : Bool := s.contains c

/-- Python `s.startswith(p)`. -/
def pyStartsWith (p s : PyStr) : Bool := List.isPrefixOf p s

/-- Python `s.replace("e-", "")`: remove every (non-overlapping,
left-to-right) occurrence of the two-character pattern `e-`. -/
def stripEDashAll : PyStr → PyStr
  | 'e' :: '-' :: rest => stripEDashAll rest
  | c :: rest => c :: stripEDashAll rest
  | [] => []

/-- First index at which a predicate holds. Models the index a Python
`for`-loop with an early `return` stops at. -/
def findIdxOpt (p : α → Bool) : List α → Option Nat
  | [] => none
  | a :: l => if p a then some 0 else (findIdxOpt p l).map (· + 1)

/-! ## Data model from `v1cli/config/settings.py` -/

/-- `StatusMapping` (settings.py): workflow status to OID mapping. -/
structure StatusMapping where
  backlog : Option PyStr := none
  ready : Option PyStr := none
  in_progress : Option PyStr := none
  review : Option PyStr := none
  done : Option PyStr := none
deriving DecidableEq

/-- `ColumnConfig` (settings.py): configuration for one display column. -/
structure ColumnConfig where
  field : PyStr
  label : Option PyStr := none
  style : Option PyStr := none
  max_width : Option Int := none
  format : Option PyStr := none
  justify : PyStr := pys (r"left")
deriving DecidableEq

/-- `AssetQueryConfig` (settings.py): query and display configuration for
an asset type, fields in source order. -/
structure AssetQueryConfig where
  select : List PyStr := []
  filters : List PyStr := []
  sort : List PyStr := []
  columns : List ColumnConfig := []
deriving DecidableEq

/-- `ProjectQueryConfig` (settings.py). -/
structure ProjectQueryConfig where
  version : Int := 1
  last_detected : Option PyStr := none
  delivery_groups : AssetQueryConfig := {}
  features : AssetQueryConfig := {}
  stories : AssetQueryConfig := {}
  tasks : AssetQueryConfig := {}
deriving DecidableEq

/-- `ProjectBookmark` (settings.py): a bookmarked project. Pydantic models
compare structurally, which the derived `DecidableEq` mirrors. -/
structure ProjectBookmark where
  name : PyStr
  oid : PyStr
  query_config : Option ProjectQueryConfig := none
deriving DecidableEq

/-- `Settings` (settings.py): the locally stored application settings. -/
structure Settings where
  member_oid : Option PyStr := none
  member_name : Option PyStr := none
  bookmarks : List ProjectBookmark := []
  default_project : Option PyStr := none
  status_mapping : StatusMapping := {}
  current_story_oid : Option PyStr := none
  current_story_number : Option PyStr := none
deriving DecidableEq

/-- The trailing numeric segment of a bookmark's OID:
`bookmark.oid.split(":")[-1] if ":" in bookmark.oid else ""`. -/
def oidNum (b : ProjectBookmark) : PyStr :=
  if pyContainsChar ':' b.oid then pyLast (pySplit ':' b.oid) else []

/-- Index-level embedding of `Settings.get_bookmark` (settings.py lines
111-155): which element of `self.bookmarks` each `return` statement
returns. The control flow is translated branch by branch:
digit identifiers try the positional index (1..99, within bounds), else
the display-number scan, then fall through; colon identifiers with an
alphabetic head match OIDs case-insensitively and never fall through;
`e-` identifiers scan display numbers and fall through to the final
case-insensitive name scan. -/
def get_bookmark_idx (s : Settings) (identifier : PyStr) : Option Nat :=
  let identifier_lower := pyLower identifier
  let digitRes : Option Nat :=
    if pyIsDigit identifier then
      let proj_num := pyInt identifier
      if 1 ≤ proj_num ∧ proj_num ≤ 99 ∧ proj_num ≤ s.bookmarks.length then
        some (proj_num - 1)
      else
        findIdxOpt (fun b => oidNum b == pyLstrip0 identifier) s.bookmarks
    else none
  match digitRes with
  | some j => some j
  | none =>
    if pyContainsChar ':' identifier && pyIsAlpha (pyHead (pySplit ':' identifier)) then
      findIdxOpt (fun b => pyLower b.oid == identifier_lower) s.bookmarks
    else if pyStartsWith (pys (r"e-")) identifier_lower then
      match findIdxOpt
          (fun b => oidNum b == pyLstrip0 (stripEDashAll identifier_lower)) s.bookmarks with
      | some j => some j
      | none => findIdxOpt (fun b => pyLower b.name == identifier_lower) s.bookmarks
    else findIdxOpt (fun b => pyLower b.name == identifier_lower) s.bookmarks

/-- `Settings.get_bookmark`: returns the bookmark object at the index the
Python control flow selects, or `None`. -/
def get_bookmark (s : Settings) (identifier : PyStr) : Option ProjectBookmark :=
  (get_bookmark_idx s identifier).bind (fun j => s.bookmarks[j]?)

/-- Replace the `oid` of the list element at an index, leaving everything
else untouched: the effect of Python's in-place `existing.oid = oid` on
the bookmark object located inside the list. -/
def setOid (l : List ProjectBookmark) (j : Nat) (oid : PyStr) : List ProjectBookmark :=
  match l, j with
  | [], _ => []
  | b :: t, 0 => { b with oid := oid } :: t
  | b :: t, n + 1 => b :: setOid t n oid

/-- `Settings.add_bookmark` (settings.py lines 157-163): look the name up
with the full resolver; overwrite the found bookmark's OID in place,
otherwise append a fresh bookmark. -/
def add_bookmark (s : Settings) (name oid : PyStr) : Settings :=
  match get_bookmark_idx s name with
  | some j => { s with bookmarks := setOid s.bookmarks j oid }
  | none => { s with bookmarks := s.bookmarks ++ [{ name := name, oid := oid }] }

/-- `Settings.remove_bookmark` (settings.py lines 165-180): resolve the
identifier; if found, remove the first list element equal to it (Python
`list.remove` uses structural equality), clear `default_project` when it
referenced the removed OID, and return the removed bookmark. -/
def remove_bookmark (s : Settings) (identifier : PyStr) :
    Option ProjectBookmark × Settings :=
  match get_bookmark s identifier with
  | some b =>
    (some b,
      { s with
        bookmarks := s.bookmarks.erase b
        default_project :=
          if s.default_project = some b.oid then none else s.default_project })
  | none => (none, s)

/-! ## Schema detector from `v1cli/config/schema_detector.py` -/

/-- One entry of the remote fetch-attributes response; only its `name`
key is read by the probe. -/
structure V1Attr where
  name : PyStr
deriving DecidableEq

/-- `get_available_attributes` (schema_detector.py lines 30-37). The
remote call `client.get_asset_attributes` is modelled by its outcome: a
successful attribute list or a raised exception (`Except.error`). The
`try/except Exception` catches every failure and returns the empty set;
the set comprehension over names is modelled as the duplicate-free name
list (only membership is ever used downstream). -/
def get_available_attributes (fetch : Except Unit (List V1Attr)) : List PyStr :=
  match fetch with
  | Except.ok attributes => (attributes.map V1Attr.name).eraseDups
  | Except.error _ => []

/-- `filter_valid_fields` (schema_detector.py lines 40-54): keep a field
iff the base segment before the first `.` is an available attribute. -/
def filter_valid_fields (desired_fields : List PyStr) (available_attrs : List PyStr) :
    List PyStr :=
  desired_fields.filter (fun f => available_attrs.contains (pyHead (pySplit '.' f)))

/-- `filter_valid_columns` (schema_detector.py lines 57-67): keep a column
iff its field's base segment is available; `col.model_copy()` produces a
structurally identical value, i.e. the identity in a value semantics. -/
def filter_valid_columns (desired_columns : List ColumnConfig)
    (available_attrs : List PyStr) : List ColumnConfig :=
  desired_columns.filter (fun col => available_attrs.contains (pyHead (pySplit '.' col.field)))

/-- `detect_asset_config` (schema_detector.py lines 70-100): probe the
schema; on an empty probe result return the defaults verbatim, otherwise
filter `select`, `sort` and `columns` and pass `filters` through
unchanged. `list.copy()` is the identity in a value semantics. -/
def detect_asset_config (fetch : Except Unit (List V1Attr))
    (default_select default_filters : List PyStr)
    (default_columns : List ColumnConfig) (default_sort : List PyStr) :
    AssetQueryConfig :=
  let available := get_available_attributes fetch
  if available.isEmpty then
    { select := default_select, filters := default_filters
      sort := default_sort, columns := default_columns }
  else
    { select := filter_valid_fields default_select available
      filters := default_filters
      sort := filter_valid_fields default_sort available
      columns := filter_valid_columns default_columns available }

/-! ## Values flowing through `v1cli/display.py`

Python values reaching the renderer are JSON-like: `None`, booleans,
ints, floats, strings, lists and string-keyed dicts. Finite floats are
modelled as exact rationals (the binary rounding of IEEE doubles is not
modelled); the special values `inf` and `nan`, which `float(str)` can
produce and which `int()` rejects, are modelled explicitly. -/

inductive Val where
  | vnone
  | vbool (b : Bool)
  | vint (n : Int)
  | vfloat (q : Rat)
  | vstr (s : PyStr)
  | vlist (l : List Val)
  | vdict (d : List (PyStr × Val))

/-- Result of Python `float(...)`: a finite value or one of the special
values accepted from strings. -/
inductive PFloat where
  | finite (q : Rat)
  | inf
  | neginf
  | nan
deriving DecidableEq

/-- The one exception `format_value`'s `except (ValueError, TypeError)`
does not catch: `OverflowError` from `int()` on an infinite float. -/
inductive PyError where
  | overflowError
deriving DecidableEq

/-- Python decimal digit string of a natural number. -/
def natDigits (n : Nat) : PyStr := Nat.toDigits 10 n

/-- Python `str(i)` for an int. -/
def pyStrOfInt (i : Int) : PyStr :=
  if i < 0 then '-' :: natDigits i.natAbs else natDigits i.toNat

/-- Strip surrounding whitespace, as Python `float(str)` does. -/
def pyStripWs (s : PyStr) : PyStr :=
  ((s.dropWhile Char.isWhitespace).reverse.dropWhile Char.isWhitespace).reverse

/-- Split an optional leading sign off a numeric literal. -/
def splitSign : PyStr → Bool × PyStr
  | '+' :: r => (false, r)
  | '-' :: r => (true, r)
  | s => (false, s)

/-- Parse the unsigned decimal part of a Python float literal:
`digits`, `digits.digits`, `digits.` or `.digits`. -/
def parseUnsignedDec (s : PyStr) : Option Rat :=
  match pySplit '.' s with
  | [a] => if pyIsDigit a then some ((pyInt a : Nat) : Rat) else none
  | [a, b] =>
    if a.all Char.isDigit && b.all Char.isDigit && !(a.isEmpty && b.isEmpty) then
      some (((pyInt a : Nat) : Rat) + ((pyInt b : Nat) : Rat) / ((10 : Rat) ^ b.length))
    else none
  | _ => none

/-- Parse mantissa and optional exponent of a Python float literal. -/
def parseMantExp (s : PyStr) : Option Rat :=
  match pySplit 'e' s with
  | [m] => parseUnsignedDec m
  | [m, ex] =>
    match parseUnsignedDec m with
    | none => none
    | some mv =>
      let (eneg, ed) := splitSign ex
      if pyIsDigit ed then
        some (if eneg then mv / (10 : Rat) ^ pyInt ed else mv * (10 : Rat) ^ pyInt ed)
      else none
  | _ => none

/-- Python `float(s)` on a string: strip whitespace, case-insensitive
`inf`/`infinity`/`nan` literals, otherwise signed decimal with optional
exponent; `none` models the `ValueError` on any other shape. (Underscore
digit grouping is not modelled.) -/
def parsePyFloat (s : PyStr) : Option PFloat :=
  let t := pyLower (pyStripWs s)
  let (neg, core) := splitSign t
  if core = pys (r"inf") ∨ core = pys (r"infinity") then
    some (if neg then PFloat.neginf else PFloat.inf)
  else if core = pys (r"nan") then some PFloat.nan
  else (parseMantExp core).map (fun q => PFloat.finite (if neg then -q else q))

/-- Python `float(value)` on the values that can reach the numeric format
branches; `none` models a caught `ValueError`/`TypeError`. -/
def pyFloatOf : Val → Option PFloat
  | Val.vint n => some (PFloat.finite (n : Rat))
  | Val.vfloat q => some (PFloat.finite q)
  | Val.vbool b => some (PFloat.finite (if b then 1 else 0))
  | Val.vstr s => parsePyFloat s
  | _ => none

/-- Python `int()` truncation toward zero of a finite float value. -/
def ratTrunc (q : Rat) : Int := Int.tdiv q.num q.den

/-- Python truthiness of the values the renderer sees. -/
def pyTruthy : Val → Bool
  | Val.vnone => false
  | Val.vbool b => b
  | Val.vint n => n ≠ 0
  | Val.vfloat q => q ≠ 0
  | Val.vstr s => !s.isEmpty
  | Val.vlist l => !l.isEmpty
  | Val.vdict d => !d.isEmpty

/-- Join string pieces with a separator, as Python `sep.join(...)`. -/
def pyJoin (sep : PyStr) : List PyStr → PyStr
  | [] => []
  | [x] => x
  | x :: xs => x ++ sep ++ pyJoin sep xs

/-- Strip trailing `0` characters. -/
def stripZerosRight (s : PyStr) : PyStr := (s.reverse.dropWhile (· == '0')).reverse

/-- Smallest power of ten (up to 64) the denominator divides, with the
matching cofactor; decimal rendering succeeds exactly for such
denominators (the only ones a binary float can produce). -/
def pow10Mult (den : Nat) : Option (Nat × Nat) :=
  (List.range 65).findSome? (fun k =>
    let p := 10 ^ k
    if p % den == 0 then some (k, p / den) else none)

/-- Python `str(q)` for a finite float value: exact decimal rendering
with at least one fractional digit (`2.0`, `0.5`); a rational with a
non-decimal denominator cannot arise from a binary float and is rendered
as a fraction. Scientific-notation switching for very large or small
magnitudes is not modelled. -/
def pyStrOfFloat (q : Rat) : PyStr :=
  match pow10Mult q.den with
  | some (k0, _) =>
    let k := max k0 1
    let scaled := q.num.natAbs * (10 ^ k / q.den)
    let intPart := natDigits (scaled / 10 ^ k)
    let fracRaw := scaled % 10 ^ k
    let fracDigits :=
      List.replicate (k - (natDigits fracRaw).length) '0' ++ natDigits fracRaw
    let frac :=
      let t := stripZerosRight fracDigits
      if t.isEmpty then ['0'] else t
    (if q.num < 0 then ['-'] else []) ++ intPart ++ '.' :: frac
  | none => pyStrOfInt q.num ++ '/' :: natDigits q.den

/-- Round a rational to the nearest integer, ties to even (the rounding
Python's fixed-point float formatting uses). -/
def roundHalfEven (q : Rat) : Int :=
  let f := ⌊q⌋
  let frac := q - (f : Rat)
  if frac < 1 / 2 then f
  else if frac > 1 / 2 then f + 1
  else if f % 2 = 0 then f else f + 1

/-- Python `f"{x:.1f}"` for a finite float value, on the exact-rational
model of the float. -/
def fmtFixed1 (q : Rat) : PyStr :=
  let neg := q < 0
  let a := (roundHalfEven (|q| * 10)).toNat
  (if neg then ['-'] else []) ++ natDigits (a / 10) ++ '.' :: natDigits (a % 10)

mutual

/-- Python `str(v)` (`repr` for values nested inside containers, which
adds quotes around strings); container rendering is modelled without
Python's escaping of special characters inside string reprs. -/
def pyRender : Bool → Val → PyStr
  | true, Val.vstr s => Char.ofNat 39 :: s ++ [Char.ofNat 39]
  | false, Val.vstr s => s
  | _, Val.vnone => pys (r"None")
  | _, Val.vbool true => pys (r"True")
  | _, Val.vbool false => pys (r"False")
  | _, Val.vint n => pyStrOfInt n
  | _, Val.vfloat q => pyStrOfFloat q
  | _, Val.vlist l => '[' :: pyJoin (pys (r", ")) (pyRenderList l) ++ [']']
  | _, Val.vdict d => Char.ofNat 123 :: pyJoin (pys (r", ")) (pyRenderPairs d) ++ [Char.ofNat 125]

/-- Repr-render each element of a list value. -/
def pyRenderList : List Val → List PyStr
  | [] => []
  | v :: vs => pyRender true v :: pyRenderList vs

/-- Repr-render each key-value pair of a dict value. -/
def pyRenderPairs : List (PyStr × Val) → List PyStr
  | [] => []
  | (k, v) :: t =>
    (Char.ofNat 39 :: k ++ [Char.ofNat 39] ++ pys (r": ") ++ pyRender true v) :: pyRenderPairs t

end

/-- Python `str(v)`. -/
def pyStrVal (v : Val) : PyStr := pyRender false v

/-- The trailing `max_width` truncation of `format_value` (display.py
lines 75-78): `if max_width and len(value) > max_width: value =
value[: max_width - 3] + "..."`. Python slicing with a negative bound
counts from the end. -/
def applyMaxWidth (v : PyStr) (max_width : Option Int) : PyStr :=
  match max_width with
  | none => v
  | some w =>
    if w ≠ 0 ∧ (v.length : Int) > w then
      (if w - 3 ≥ 0 then v.take (w - 3).toNat else v.take (v.length - (3 - w).toNat))
        ++ pys (r"...")
    else v

/-- The list branch of `format_value` (display.py lines 48-51): an empty
list triggers the early `return "-"` (modelled as `none`), a non-empty
list is replaced by the comma-joined string of its elements. -/
def joinIfList : Val → Option Val
  | Val.vlist l =>
    if l.isEmpty then none
    else some (Val.vstr (pyJoin (pys (r", ")) (l.map pyStrVal)))
  | v => some v

/-- The format-type dispatch of `format_value` (display.py lines 53-73),
applied after the `None` and list branches. The return type records the
one uncaught exception: `int()` on an infinite float raises
`OverflowError`, which the surrounding `except (ValueError, TypeError)`
does not catch; caught conversion failures yield the `"-"` placeholder. -/
def format_core (v : Val) (format_type : Option PyStr) : Except PyError PyStr :=
  if format_type == some (pys (r"date")) then
    Except.ok (if pyTruthy v then (pyStrVal v).take 10 else pys (r"-"))
  else if format_type == some (pys (r"percent")) then
    match pyFloatOf v with
    | none => Except.ok (pys (r"-"))
    | some (PFloat.finite q) => Except.ok (pyStrOfInt (ratTrunc (q * 100)) ++ ['%'])
    | some PFloat.nan => Except.ok (pys (r"-"))
    | some PFloat.inf => Except.error PyError.overflowError
    | some PFloat.neginf => Except.error PyError.overflowError
  else if format_type == some (pys (r"points")) then
    match pyFloatOf v with
    | none => Except.ok (pys (r"-"))
    | some (PFloat.finite q) => Except.ok (pyStrOfInt (ratTrunc q))
    | some PFloat.nan => Except.ok (pys (r"-"))
    | some PFloat.inf => Except.error PyError.overflowError
    | some PFloat.neginf => Except.error PyError.overflowError
  else if format_type == some (pys (r"hours")) then
    match pyFloatOf v with
    | none => Except.ok (pys (r"-"))
    | some (PFloat.finite q) => Except.ok (fmtFixed1 q ++ ['h'])
    | some PFloat.nan => Except.ok (pys (r"nanh"))
    | some PFloat.inf => Except.ok (pys (r"infh"))
    | some PFloat.neginf => Except.ok (pys (r"-infh"))
  else Except.ok (pyStrVal v)

/-- Python `value is None`. -/
def isVNone : Val → Bool
  | Val.vnone => true
  | _ => false

/-- `format_value` (display.py lines 36-79), translated branch for
branch: the `None` early return, the list branch, the format-type
dispatch, and the final `max_width` truncation (which the two early
`return "-"` statements skip). -/
def format_value (value : Val) (format_type : Option PyStr) (max_width : Option Int) :
    Except PyError PyStr :=
  if isVNone value then Except.ok (pys (r"-"))
  else
    match joinIfList value with
    | none => Except.ok (pys (r"-"))
    | some v =>
      match format_core v format_type with
      | Except.ok sres => Except.ok (applyMaxWidth sres max_width)
      | Except.error e => Except.error e

/-- Python `item.get(key)` on a string-keyed dict (first matching key;
real dicts have unique keys). -/
def dictGet (d : List (PyStr × Val)) (k : PyStr) : Option Val :=
  (d.find? (fun p => p.1 == k)).map Prod.snd

/-- The traversal loop of `get_nested_field` (display.py lines 24-33):
walk the remaining path parts; a `None` value or a missing key yields
`None`, a non-dict intermediate yields `None`. -/
def traverseParts : Val → List PyStr → Val
  | v, [] => v
  | Val.vnone, _ :: _ => Val.vnone
  | Val.vdict d, p :: ps => traverseParts ((dictGet d p).getD Val.vnone) ps
  | _, _ :: _ => Val.vnone

/-- `get_nested_field` (display.py lines 10-33): dot-free fields use a
flat lookup; dotted fields first try the full dotted path as a literal
key, then traverse segment by segment. Python conflates a stored `None`
with an absent key, which `Val.vnone` mirrors. -/
def get_nested_field (item : List (PyStr × Val)) (field : PyStr) : Val :=
  if ¬ pyContainsChar '.' field then (dictGet item field).getD Val.vnone
  else
    match dictGet item field with
    | some v => v
    | none => traverseParts (Val.vdict item) (pySplit '.' field)

/-! ## Supporting lemmas -/

deriving instance DecidableEq for Except

/-- Looking the found index back up in the list is exactly `find?`. -/
theorem findIdxOpt_bind_getElem (p : α → Bool) (l : List α) :
    (findIdxOpt p l).bind (fun j => l[j]?) = l.find? p := by
  induction l with
  | nil => rfl
  | cons a t ih =>
    cases h : p a with
    | true => simp [findIdxOpt, List.find?, h]
    | false =>
      simp only [findIdxOpt, h, Bool.false_eq_true, if_false, List.find?]
      rw [← ih]
      cases findIdxOpt p t <;> simp

/-- A found index is in bounds. -/
theorem findIdxOpt_lt_length (p : α → Bool) (l : List α) (j : Nat)
    (h : findIdxOpt p l = some j) : j < l.length := by
  induction l generalizing j with
  | nil => simp [findIdxOpt] at h
  | cons a t ih =>
    simp only [findIdxOpt] at h
    by_cases hp : p a
    · simp only [hp, if_true, Option.some.injEq] at h
      subst h
      simp
    · simp only [hp, if_neg, Bool.false_eq_true, if_false, Option.map_eq_some'] at h
      obtain ⟨j', hj', rfl⟩ := h
      have := ih j' hj'
      simp only [List.length_cons]
      omega

/-- Decimal digit strings of numbers up to 99 round-trip through the
string model: they are non-empty all-digit strings parsing back to the
same number. -/
theorem natDigits_roundtrip :
    ∀ n : Nat, n < 100 → pyIsDigit (natDigits n) = true ∧ pyInt (natDigits n) = n := by
  decide

/-- A string containing a colon is not all digits. -/
theorem pyIsDigit_eq_false_of_colon (i : PyStr) (h : pyContainsChar ':' i = true) :
    pyIsDigit i = false := by
  have hm : ':' ∈ i := by simpa [pyContainsChar] using h
  cases hall : i.all Char.isDigit with
  | false => simp [pyIsDigit, hall]
  | true => exact absurd (List.all_eq_true.mp hall ':' hm) (by decide)

/-- Splitting a string that does not contain the separator yields the
single segment equal to the whole string. -/
theorem pySplit_eq_single (c : Char) (s : PyStr) (h : pyContainsChar c s = false) :
    pySplit c s = [s] := by
  induction s with
  | nil => rfl
  | cons a t ih =>
    simp only [pyContainsChar, List.contains_cons, Bool.or_eq_false_iff] at h
    have ha : (a == c) = false := by
      cases hx : a == c
      · rfl
      · exact absurd (by simpa [eq_comm] using (beq_iff_eq.mp hx)) (by simpa using h.1)
    simp only [pySplit, ha, Bool.false_eq_true, if_false]
    rw [ih (by simpa [pyContainsChar] using h.2)]

/-- Erasing a value occurring exactly once, located at index `k`, removes
precisely the element at `k`. -/
theorem erase_count_one_eq_take_drop [DecidableEq α] (l : List α) (a : α) (k : Nat)
    (hc : l.count a = 1) (hk : l[k]? = some a) :
    l.erase a = l.take k ++ l.drop (k + 1) := by
  induction l generalizing k with
  | nil => simp at hk
  | cons b t ih =>
    cases k with
    | zero =>
      simp only [List.getElem?_cons_zero, Option.some.injEq] at hk
      subst hk
      simp [List.erase_cons_head]
    | succ k =>
      simp only [List.getElem?_cons_succ] at hk
      have hmem : a ∈ t := by
        obtain ⟨hlt, rfl⟩ := List.getElem?_eq_some.mp hk
        exact List.getElem_mem hlt
      have hpos : 0 < t.count a := List.count_pos_iff.mpr hmem
      have hb : (b == a) = false := by
        cases hx : b == a
        · rfl
        · exfalso
          have : (b :: t).count a = t.count a + 1 := by
            simp [List.count_cons, beq_iff_eq.mp hx]
          omega
      have hct : t.count a = 1 := by
        have : (b :: t).count a = t.count a := by simp [List.count_cons, hb]
        omega
      rw [List.erase_cons_tail (by simp [hb]), ih k hct hk]
      simp

/-- `setOid` preserves the list length. -/
theorem setOid_length (l : List ProjectBookmark) (j : Nat) (o : PyStr) :
    (setOid l j o).length = l.length := by
  induction l generalizing j with
  | nil => rfl
  | cons b t ih =>
    cases j with
    | zero => simp [setOid]
    | succ j => simp [setOid, ih]

/-- `setOid` at the written index: the stored bookmark keeps its name and
configuration, only the OID changes. -/
theorem setOid_getElem_self (l : List ProjectBookmark) (j : Nat) (o : PyStr)
    (b : ProjectBookmark) (h : l[j]? = some b) :
    (setOid l j o)[j]? = some { b with oid := o } := by
  induction l generalizing j with
  | nil => simp at h
  | cons x t ih =>
    cases j with
    | zero =>
      simp only [List.getElem?_cons_zero, Option.some.injEq] at h
      subst h
      simp [setOid]
    | succ j =>
      simp only [List.getElem?_cons_succ] at h
      simpa [setOid] using ih j h

/-- `setOid` leaves every other index untouched. -/
theorem setOid_getElem_ne (l : List ProjectBookmark) (j : Nat) (o : PyStr)
    (k : Nat) (h : k ≠ j) : (setOid l j o)[k]? = l[k]? := by
  induction l generalizing j k with
  | nil => rfl
  | cons x t ih =>
    cases j with
    | zero =>
      cases k with
      | zero => exact absurd rfl h
      | succ k => simp [setOid]
    | succ j =>
      cases k with
      | zero => simp [setOid]
      | succ k => simpa [setOid] using ih j k (by omega)

/-- Any index the resolver produces is a valid bookmark index. -/
theorem get_bookmark_idx_lt (s : Settings) (i : PyStr) (j : Nat)
    (h : get_bookmark_idx s i = some j) : j < s.bookmarks.length := by
  simp only [get_bookmark_idx] at h
  split at h
  next j' heq =>
    have hj : j' = j := by simpa using h
    subst hj
    split at heq
    · split at heq
      next hg =>
        simp only [Option.some.injEq] at heq
        omega
      next => exact findIdxOpt_lt_length _ _ _ heq
    · simp at heq
  next heq =>
    split at h
    · exact findIdxOpt_lt_length _ _ _ h
    · split at h
      · split at h
        next j' heq2 =>
          have hj : j' = j := by simpa using h
          subst hj
          exact findIdxOpt_lt_length _ _ _ heq2
        next => exact findIdxOpt_lt_length _ _ _ h
      · exact findIdxOpt_lt_length _ _ _ h

/-- The resolver returns a bookmark exactly when it selects an index. -/
theorem get_bookmark_eq_none_iff (s : Settings) (i : PyStr) :
    get_bookmark s i = none ↔ get_bookmark_idx s i = none := by
  unfold get_bookmark
  cases h : get_bookmark_idx s i with
  | none => simp
  | some j =>
    have hlt := get_bookmark_idx_lt s i j h
    simp [List.getElem?_eq_getElem hlt]

/-- Digit identifier within the positional bounds: the resolver selects
the 1-based position. -/
theorem gbIdx_digit_pos (s : Settings) (i : PyStr) (hd : pyIsDigit i = true)
    (hg : 1 ≤ pyInt i ∧ pyInt i ≤ 99 ∧ pyInt i ≤ s.bookmarks.length) :
    get_bookmark_idx s i = some (pyInt i - 1) := by
  simp only [get_bookmark_idx, hd, if_true]
  rw [if_pos hg]

/-- Digit identifier within the positional bounds: `get_bookmark` returns
the bookmark at the 1-based position. -/
theorem gb_digit_pos (s : Settings) (i : PyStr) (hd : pyIsDigit i = true)
    (hg : 1 ≤ pyInt i ∧ pyInt i ≤ 99 ∧ pyInt i ≤ s.bookmarks.length) :
    get_bookmark s i = s.bookmarks[pyInt i - 1]? := by
  simp [get_bookmark, gbIdx_digit_pos s i hd hg]

/-- Digit identifier outside the positional bounds: when some bookmark's
trailing OID segment matches the zero-stripped digits, `get_bookmark`
returns the first such bookmark. -/
theorem gb_digit_fallback (s : Settings) (i : PyStr) (hd : pyIsDigit i = true)
    (hng : ¬(1 ≤ pyInt i ∧ pyInt i ≤ 99 ∧ pyInt i ≤ s.bookmarks.length))
    (b : ProjectBookmark)
    (hf : s.bookmarks.find? (fun b => oidNum b == pyLstrip0 i) = some b) :
    get_bookmark s i = some b := by
  unfold get_bookmark
  simp only [get_bookmark_idx, hd, if_true]
  rw [if_neg hng]
  rw [← findIdxOpt_bind_getElem] at hf
  cases hfi : findIdxOpt (fun b => oidNum b == pyLstrip0 i) s.bookmarks with
  | none => rw [hfi] at hf; simp at hf
  | some j => rw [hfi] at hf; simpa using hf

/-- Colon identifier with alphabetic head: `get_bookmark` is exactly the
first case-insensitive OID match (so an unmatched token yields `none`,
with no fallback to display numbers or names). -/
theorem gb_token (s : Settings) (i : PyStr)
    (hc : pyContainsChar ':' i = true)
    (ha : pyIsAlpha (pyHead (pySplit ':' i)) = true) :
    get_bookmark s i = s.bookmarks.find? (fun b => pyLower b.oid == pyLower i) := by
  have hdf := pyIsDigit_eq_false_of_colon i hc
  unfold get_bookmark
  simp only [get_bookmark_idx, hdf, Bool.false_eq_true, if_false, hc, ha,
    Bool.and_self, if_true]
  exact findIdxOpt_bind_getElem _ _

/-! ## Example fixtures -/

/-- The spec's running example bookmark `("First", "Epic:100")`. -/
def bmFirst : ProjectBookmark := { name := pys (r"First"), oid := pys (r"Epic:100") }

/-- The spec's running example bookmark `("Second", "Epic:200")`. -/
def bmSecond : ProjectBookmark := { name := pys (r"Second"), oid := pys (r"Epic:200") }

/-- The spec's running example settings, with a default project set. -/
def exSettings : Settings :=
  { bookmarks := [bmFirst, bmSecond], default_project := some (pys (r"Epic:100")) }

/-- A settings value with one hundred bookmarks, all of whose OIDs end in
`:0`: position 100 is in range but above the 99 cap. -/
def cent : Settings :=
  { bookmarks := List.replicate 100 { name := pys (r"b"), oid := pys (r"Epic:0") } }

/-! ## Claims -/

set_option maxRecDepth 20000 in
/-- C1, counterexample: on a list of 100 bookmarks the identifier "100"
satisfies 1 ≤ 100 ≤ length, yet `get_bookmark` returns `None` rather than
the bookmark at position 100 — the positional rule is capped at 99 and
the display-number, token and name fallbacks all miss. -/
theorem c1_counterexample :
    get_bookmark cent (natDigits 100) = none ∧
    cent.bookmarks[100 - 1]? =
      some { name := pys (r"b"), oid := pys (r"Epic:0") } ∧
    get_bookmark cent (natDigits 100) ≠ cent.bookmarks[100 - 1]? := by
  exact ⟨by decide, by decide, by decide⟩

/-- C1 (amended): for every bookmark list and every n with
1 ≤ n ≤ min(99, length), resolving the decimal string of n returns the
bookmark at 1-based position n. -/
theorem c1_positional_resolution (s : Settings) (n : Nat)
    (h1 : 1 ≤ n) (h2 : n ≤ 99) (h3 : n ≤ s.bookmarks.length) :
    get_bookmark s (natDigits n) = s.bookmarks[n - 1]? ∧
    (s.bookmarks[n - 1]?).isSome = true := by
  have hr := natDigits_roundtrip n (by omega)
  constructor
  · have h := gb_digit_pos s (natDigits n) hr.1 (by rw [hr.2]; exact ⟨h1, h2, h3⟩)
    rw [h, hr.2]
  · rw [List.getElem?_eq_getElem (by omega : n - 1 < s.bookmarks.length)]
    rfl

/-- C1 witness: position 2 of the two-bookmark example resolves to the
second bookmark. -/
theorem c1_positional_resolution_witness :
    get_bookmark exSettings (natDigits 2) = exSettings.bookmarks[2 - 1]? ∧
    (exSettings.bookmarks[2 - 1]?).isSome = true :=
  c1_positional_resolution exSettings 2 (by decide) (by decide) (by decide)

/-- C2: a digit identifier with value in [1, 99] not exceeding the list
length resolves positionally; otherwise it is never read as a position
and falls through to display-number matching, returning the first
bookmark whose OID's trailing segment equals the identifier with leading
zeros stripped, whenever such a bookmark exists. -/
theorem c2_digit_precedence (s : Settings) (i : PyStr) (hd : pyIsDigit i = true) :
    ((1 ≤ pyInt i ∧ pyInt i ≤ 99 ∧ pyInt i ≤ s.bookmarks.length) →
       get_bookmark s i = s.bookmarks[pyInt i - 1]?) ∧
    (¬(1 ≤ pyInt i ∧ pyInt i ≤ 99 ∧ pyInt i ≤ s.bookmarks.length) →
       ∀ b, s.bookmarks.find? (fun b => oidNum b == pyLstrip0 i) = some b →
         get_bookmark s i = some b) :=
  ⟨gb_digit_pos s i hd, gb_digit_fallback s i hd⟩

/-- C2 witness: on the two-bookmark example, "2" resolves positionally
and "0200" (value 200 > 99) falls through to the display-number match on
`Epic:200`. -/
theorem c2_digit_precedence_witness :
    get_bookmark exSettings (pys (r"2")) = some bmSecond ∧
    get_bookmark exSettings (pys (r"0200")) = some bmSecond := by
  constructor
  · have h := (c2_digit_precedence exSettings (pys (r"2")) rfl).1 (by decide)
    rw [h]
    rfl
  · exact (c2_digit_precedence exSettings (pys (r"0200")) rfl).2 (by decide) bmSecond rfl

/-- C3: an identifier containing a colon whose head is alphabetic is
matched case-insensitively against stored OID tokens and nothing else:
`get_bookmark` equals the first case-insensitive OID match (hence `none`
— "not found" — when no token matches, with no display-number or name
fallback), and any two such identifiers equal up to case resolve
identically. -/
theorem c3_token_case_insensitive (s : Settings) (i1 i2 : PyStr)
    (hc1 : pyContainsChar ':' i1 = true)
    (ha1 : pyIsAlpha (pyHead (pySplit ':' i1)) = true)
    (hc2 : pyContainsChar ':' i2 = true)
    (ha2 : pyIsAlpha (pyHead (pySplit ':' i2)) = true)
    (hl : pyLower i1 = pyLower i2) :
    get_bookmark s i1 = s.bookmarks.find? (fun b => pyLower b.oid == pyLower i1) ∧
    get_bookmark s i1 = get_bookmark s i2 := by
  have e1 := gb_token s i1 hc1 ha1
  have e2 := gb_token s i2 hc2 ha2
  exact ⟨e1, by rw [e1, e2, hl]⟩

/-- C3 witness: `Epic:200` and `epic:200` both resolve to the second
example bookmark. -/
theorem c3_token_case_insensitive_witness :
    get_bookmark exSettings (pys (r"Epic:200")) = some bmSecond ∧
    get_bookmark exSettings (pys (r"Epic:200")) =
      get_bookmark exSettings (pys (r"epic:200")) := by
  have h := c3_token_case_insensitive exSettings (pys (r"Epic:200")) (pys (r"epic:200"))
    rfl rfl rfl rfl rfl
  exact ⟨by rw [h.1]; rfl, h.2⟩

/-- Splitting `rel ++ "." ++ sub` where `rel` is dot-free yields `rel` as
the first segment. -/
theorem pySplit_append_sep (c : Char) (rel sub : PyStr)
    (h : pyContainsChar c rel = false) :
    pySplit c (rel ++ c :: sub) = rel :: pySplit c sub := by
  induction rel with
  | nil => simp [pySplit]
  | cons a t ih =>
    simp only [pyContainsChar, List.contains_cons, Bool.or_eq_false_iff] at h
    have ha : (a == c) = false := by
      cases hx : a == c
      · rfl
      · exact absurd (by simpa [eq_comm] using (beq_iff_eq.mp hx)) (by simpa using h.1)
    simp only [List.cons_append, pySplit, ha, Bool.false_eq_true, if_false,
      List.append_eq]
    rw [ih (by simpa [pyContainsChar] using h.2)]

/-- C4: with a non-empty probed schema, `detect_asset_config` keeps a
`select` or `sort` entry iff its base segment (before the first dot) is
in the schema, keeps a column iff its field's base segment is in the
schema, preserves relative order and adds nothing (each kept list is a
sublist of the desired one), and keeps a relation-qualified field
`rel.sub` exactly when `rel` is in the schema, regardless of the
sub-field. -/
theorem c4_schema_filtering (fetch : Except Unit (List V1Attr))
    (ds df dsort : List PyStr) (dc : List ColumnConfig)
    (hne : get_available_attributes fetch ≠ []) :
    (detect_asset_config fetch ds df dc dsort).select.Sublist ds ∧
    (∀ f, f ∈ (detect_asset_config fetch ds df dc dsort).select ↔
       f ∈ ds ∧ (get_available_attributes fetch).contains (pyHead (pySplit '.' f)) = true) ∧
    (detect_asset_config fetch ds df dc dsort).sort.Sublist dsort ∧
    (∀ f, f ∈ (detect_asset_config fetch ds df dc dsort).sort ↔
       f ∈ dsort ∧ (get_available_attributes fetch).contains (pyHead (pySplit '.' f)) = true) ∧
    (detect_asset_config fetch ds df dc dsort).columns.Sublist dc ∧
    (∀ c, c ∈ (detect_asset_config fetch ds df dc dsort).columns ↔
       c ∈ dc ∧ (get_available_attributes fetch).contains (pyHead (pySplit '.' c.field)) = true) ∧
    (∀ rel sub, pyContainsChar '.' rel = false → (rel ++ '.' :: sub) ∈ ds →
       ((rel ++ '.' :: sub) ∈ (detect_asset_config fetch ds df dc dsort).select ↔
          (get_available_attributes fetch).contains rel = true)) := by
  have hie : (get_available_attributes fetch).isEmpty = false := by
    cases hv : get_available_attributes fetch
    · exact absurd hv hne
    · rfl
  have hcfg : detect_asset_config fetch ds df dc dsort =
      { select := filter_valid_fields ds (get_available_attributes fetch)
        filters := df
        sort := filter_valid_fields dsort (get_available_attributes fetch)
        columns := filter_valid_columns dc (get_available_attributes fetch) } := by
    simp only [detect_asset_config, hie, Bool.false_eq_true, if_false]
  rw [hcfg]
  refine ⟨List.filter_sublist ds, fun f => List.mem_filter,
    List.filter_sublist dsort, fun f => List.mem_filter,
    List.filter_sublist dc, fun c => List.mem_filter, ?_⟩
  intro rel sub hrel hmem
  rw [show (filter_valid_fields ds (get_available_attributes fetch) : List PyStr) =
      ds.filter (fun f => (get_available_attributes fetch).contains (pyHead (pySplit '.' f)))
    from rfl]
  rw [List.mem_filter]
  rw [show pyHead (pySplit '.' (rel ++ '.' :: sub)) = rel by
    rw [pySplit_append_sep '.' rel sub hrel]; rfl]
  exact ⟨fun h => h.2, fun h => ⟨hmem, h⟩⟩

/-- C4 witness: with schema {Name, Number, Status}, the desired selects
[Name, Number, Status.Name, Ghost] are pruned to
[Name, Number, Status.Name]: the relation field survives because its base
`Status` exists, and `Ghost` is dropped. -/
theorem c4_schema_filtering_witness :
    (detect_asset_config
        (Except.ok [⟨pys (r"Name")⟩, ⟨pys (r"Number")⟩, ⟨pys (r"Status")⟩])
        [pys (r"Name"), pys (r"Number"), pys (r"Status.Name"), pys (r"Ghost")]
        [] [] []).select =
      [pys (r"Name"), pys (r"Number"), pys (r"Status.Name")] ∧
    ¬ pys (r"Ghost") ∈ (detect_asset_config
        (Except.ok [⟨pys (r"Name")⟩, ⟨pys (r"Number")⟩, ⟨pys (r"Status")⟩])
        [pys (r"Name"), pys (r"Number"), pys (r"Status.Name"), pys (r"Ghost")]
        [] [] []).select := by
  have h := c4_schema_filtering
    (Except.ok [⟨pys (r"Name")⟩, ⟨pys (r"Number")⟩, ⟨pys (r"Status")⟩])
    [pys (r"Name"), pys (r"Number"), pys (r"Status.Name"), pys (r"Ghost")]
    [] [] [] (by decide)
  refine ⟨by decide, ?_⟩
  intro hmem
  have := (h.2.1 (pys (r"Ghost"))).mp hmem
  exact absurd this.2 (by decide)

/-- C5: the schema probe maps any raised exception to the empty set
(never propagating it — the embedding is a total function); with an empty
probe result `detect_asset_config` returns the desired defaults verbatim;
and the desired filters are passed through unvalidated in every case. -/
theorem c5_probe_failure_defaults (fetch : Except Unit (List V1Attr)) (e : Unit)
    (ds df dsort : List PyStr) (dc : List ColumnConfig) :
    get_available_attributes (Except.error e) = [] ∧
    (get_available_attributes fetch = [] →
      detect_asset_config fetch ds df dc dsort =
        { select := ds, filters := df, sort := dsort, columns := dc }) ∧
    (detect_asset_config fetch ds df dc dsort).filters = df := by
  refine ⟨rfl, ?_, ?_⟩
  · intro h
    simp [detect_asset_config, h]
  · simp only [detect_asset_config]
    split <;> rfl

/-- C5 witness: a failed probe leaves a concrete desired configuration
untouched. -/
theorem c5_probe_failure_defaults_witness :
    detect_asset_config (Except.error ()) [pys (r"Name")] [pys (r"F")] [] [pys (r"S")] =
      { select := [pys (r"Name")], filters := [pys (r"F")],
        sort := [pys (r"S")], columns := [] } :=
  (c5_probe_failure_defaults (Except.error ()) ()
    [pys (r"Name")] [pys (r"F")] [pys (r"S")] []).2.1 rfl

/-- C6: `get_nested_field` returns the value stored under the full dotted
path as a literal flat key when present, and only otherwise traverses the
path segment by segment through nested mappings (where a missing key,
`None`, or non-mapping intermediate yields `None`). -/
theorem c6_nested_field_lookup (item : List (PyStr × Val)) (field : PyStr) :
    (∀ v, dictGet item field = some v → get_nested_field item field = v) ∧
    (dictGet item field = none →
       get_nested_field item field = traverseParts (Val.vdict item) (pySplit '.' field)) := by
  by_cases hc : pyContainsChar '.' field = true
  · constructor
    · intro v hv
      simp [get_nested_field, hc, hv]
    · intro hn
      simp [get_nested_field, hc, hn]
  · have hcf : pyContainsChar '.' field = false := by
      cases hx : pyContainsChar '.' field
      · rfl
      · exact absurd hx hc
    have hs := pySplit_eq_single '.' field hcf
    constructor
    · intro v hv
      simp [get_nested_field, hcf, hv]
    · intro hn
      simp [get_nested_field, hcf, hn, hs, traverseParts]

/-- The example record with a nested status mapping. -/
def exRecord : List (PyStr × Val) :=
  [(pys (r"Status"), Val.vdict [(pys (r"Name"), Val.vstr (pys (r"Done")))])]

/-- C6 witness: `Status.Name` on `{"Status": {"Name": "Done"}}` yields
`"Done"` through the traversal path. -/
theorem c6_nested_field_lookup_witness :
    get_nested_field exRecord (pys (r"Status.Name")) = Val.vstr (pys (r"Done")) := by
  have h := (c6_nested_field_lookup exRecord (pys (r"Status.Name"))).2 rfl
  rw [h]
  rfl

/-- C7 (the code, evaluated): `format_value` does satisfy the claim's
listed cases — `None` formats as `"-"` under every format type and width,
an empty list as `"-"`, `0.5` as `"50%"` under `percent`, and an
unparsable string as `"-"` under `hours` — but it is not raise-free: the
string `"inf"` parses as an infinite float and `int()` then raises an
`OverflowError` that `except (ValueError, TypeError)` does not catch. -/
theorem c7_format_value_error_handling :
    format_value (Val.vstr (pys (r"inf"))) (some (pys (r"percent"))) none =
      Except.error PyError.overflowError ∧
    (∀ (fmt : Option PyStr) (mw : Option Int),
      format_value Val.vnone fmt mw = Except.ok (pys (r"-"))) ∧
    format_value (Val.vlist []) none none = Except.ok (pys (r"-")) ∧
    format_value (Val.vfloat (1 / 2)) (some (pys (r"percent"))) none =
      Except.ok (pys (r"50%")) ∧
    format_value (Val.vstr (pys (r"bad"))) (some (pys (r"hours"))) none =
      Except.ok (pys (r"-")) := by
  refine ⟨rfl, fun _ _ => rfl, rfl, ?_, rfl⟩
  have hcore : format_core (Val.vfloat (1 / 2)) (some (pys (r"percent"))) =
      Except.ok (pys (r"50%")) := by
    have hbd : (some (pys (r"percent")) == some (pys (r"date"))) = false := rfl
    have hbp : (some (pys (r"percent")) == some (pys (r"percent"))) = true := rfl
    simp only [format_core, hbd, hbp, Bool.false_eq_true, if_false, if_true, pyFloatOf]
    have h50 : ratTrunc ((1 / 2 : Rat) * 100) = 50 := by
      have he : ((1 / 2 : Rat) * 100) = 50 := by norm_num
      rw [he]
      simp [ratTrunc]
    rw [h50]
    rfl
  calc format_value (Val.vfloat (1 / 2)) (some (pys (r"percent"))) none
      = (match format_core (Val.vfloat (1 / 2)) (some (pys (r"percent"))) with
         | Except.ok sres => Except.ok (applyMaxWidth sres none)
         | Except.error e => Except.error e) := rfl
    _ = Except.ok (applyMaxWidth (pys (r"50%")) none) := by rw [hcore]
    _ = Except.ok (pys (r"50%")) := rfl

/-- A successful `format_value` run with no width bound determines the
run with a width bound: either the bound is applied to the same formatted
string, or the result came from one of the two early `return "-"`
statements, which skip truncation. -/
theorem format_value_mw_of_none (v : Val) (f : Option PyStr) (mw : Option Int)
    (s : PyStr) (h : format_value v f none = Except.ok s) :
    format_value v f mw = Except.ok (applyMaxWidth s mw) ∨
    (s = pys (r"-") ∧ format_value v f mw = Except.ok s) := by
  unfold format_value at h ⊢
  by_cases hn : isVNone v = true
  · rw [if_pos hn] at h ⊢
    right
    simp only [Except.ok.injEq] at h
    exact ⟨h.symm, by rw [h]⟩
  · rw [if_neg hn] at h ⊢
    cases hj : joinIfList v with
    | none =>
      rw [hj] at h
      right
      have h' : Except.ok (pys (r"-")) = Except.ok s := h
      exact ⟨(Except.ok.inj h').symm, h'⟩
    | some v' =>
      rw [hj] at h
      have h' : (match format_core v' f with
          | Except.ok sres => Except.ok (applyMaxWidth sres none)
          | Except.error e => Except.error e) = Except.ok s := h
      cases hcore : format_core v' f with
      | ok t =>
        rw [hcore] at h'
        simp only [Except.ok.injEq] at h'
        have hst : s = t := by rw [← h']; rfl
        left
        show (match format_core v' f with
            | Except.ok sres => Except.ok (applyMaxWidth sres mw)
            | Except.error e => Except.error e) = Except.ok (applyMaxWidth s mw)
        rw [hcore, hst]
      | error e =>
        rw [hcore] at h'
        simp at h'

/-- C8, counterexample: with `max_width = 1` and the four-character
string "abcd", the formatted result is "ab..." (Python's negative slice
`value[:-2]` keeps two characters), which has length 5, not `max_width`. -/
theorem c8_counterexample :
    format_value (Val.vstr (pys (r"abcd"))) none (some 1) =
      Except.ok (pys (r"ab...")) ∧
    (pys (r"ab...")).length ≠ 1 := ⟨rfl, by decide⟩

/-- C8 (amended): for `max_width ≥ 3`, whenever the formatted string is
longer than `max_width`, `format_value` truncates it to exactly
`max_width` characters whose last three are `"..."`. -/
theorem c8_truncation (value : Val) (fmt : Option PyStr) (w : Nat) (s : PyStr)
    (hw : 3 ≤ w)
    (hfv : format_value value fmt none = Except.ok s)
    (hlen : w < s.length) :
    format_value value fmt (some (w : Int)) =
      Except.ok (s.take (w - 3) ++ pys (r"...")) ∧
    (s.take (w - 3) ++ pys (r"...")).length = w ∧
    (s.take (w - 3) ++ pys (r"...")).drop (w - 3) = pys (r"...") := by
  rcases format_value_mw_of_none value fmt (some (w : Int)) s hfv with h | ⟨hs, h⟩
  · have happ : applyMaxWidth s (some (w : Int)) = s.take (w - 3) ++ pys (r"...") := by
      simp only [applyMaxWidth]
      rw [if_pos ⟨by omega, by omega⟩]
      rw [if_pos (by omega : (w : Int) - 3 ≥ 0)]
      have hcast : ((w : Int) - 3).toNat = w - 3 := by omega
      rw [hcast]
    have htk : (s.take (w - 3)).length = w - 3 := by
      rw [List.length_take]
      omega
    refine ⟨by rw [h, happ], ?_, ?_⟩
    · rw [List.length_append, htk]
      have : (pys (r"...")).length = 3 := rfl
      omega
    · have hd := List.drop_left (s.take (w - 3)) (pys (r"..."))
      rw [htk] at hd
      exact hd
  · exfalso
    have : s.length = 1 := by rw [hs]; rfl
    omega

/-- C8 witness: "abcdef" with width 5 becomes the 5-character "ab...". -/
theorem c8_truncation_witness :
    format_value (Val.vstr (pys (r"abcdef"))) none (some ((5 : Nat) : Int)) =
      Except.ok ((pys (r"abcdef")).take (5 - 3) ++ pys (r"...")) ∧
    ((pys (r"abcdef")).take (5 - 3) ++ pys (r"...")).length = 5 ∧
    ((pys (r"abcdef")).take (5 - 3) ++ pys (r"...")).drop (5 - 3) = pys (r"...") :=
  c8_truncation (Val.vstr (pys (r"abcdef"))) none 5 (pys (r"abcdef"))
    (by omega) rfl (by decide)

/-- The bookmarks of the C9 counterexample: the value at position 3 also
occurs at position 1. -/
def dupA : ProjectBookmark := { name := pys (r"A"), oid := pys (r"Epic:1") }

/-- The middle bookmark of the C9 counterexample. -/
def dupB : ProjectBookmark := { name := pys (r"B"), oid := pys (r"Epic:2") }

/-- Settings with a duplicated bookmark value. -/
def dupSettings : Settings := { bookmarks := [dupA, dupB, dupA] }

/-- C9, counterexample: identifier "3" resolves to the bookmark at
position 3, but Python's `list.remove` deletes the *first* structurally
equal element, so the other bookmarks do not keep their positions: the
result is `[B, A]`, not `[A, B]`. -/
theorem c9_counterexample :
    get_bookmark dupSettings (pys (r"3")) = dupSettings.bookmarks[2]? ∧
    (remove_bookmark dupSettings (pys (r"3"))).2.bookmarks = [dupB, dupA] ∧
    (remove_bookmark dupSettings (pys (r"3"))).2.bookmarks ≠
      dupSettings.bookmarks.take 2 ++ dupSettings.bookmarks.drop 3 :=
  ⟨rfl, rfl, by decide⟩

/-- C9 (amended): `remove_bookmark` returns the resolved bookmark,
removes the first list entry equal to it — which is exactly the entry at
the resolved bookmark's position whenever its value occurs only once, so
that all other bookmarks keep their positions — clears `default_project`
iff it equalled the removed bookmark's OID, and leaves every other
settings field unchanged. -/
theorem c9_remove_bookmark (s : Settings) (i : PyStr) (b : ProjectBookmark)
    (hb : get_bookmark s i = some b)
    (hcount : s.bookmarks.count b = 1) :
    (remove_bookmark s i).1 = some b ∧
    (remove_bookmark s i).2.bookmarks = s.bookmarks.erase b ∧
    (∀ k : Nat, s.bookmarks[k]? = some b →
       (remove_bookmark s i).2.bookmarks =
         s.bookmarks.take k ++ s.bookmarks.drop (k + 1)) ∧
    (remove_bookmark s i).2.default_project =
      (if s.default_project = some b.oid then none else s.default_project) ∧
    (remove_bookmark s i).2.member_oid = s.member_oid ∧
    (remove_bookmark s i).2.member_name = s.member_name ∧
    (remove_bookmark s i).2.status_mapping = s.status_mapping ∧
    (remove_bookmark s i).2.current_story_oid = s.current_story_oid ∧
    (remove_bookmark s i).2.current_story_number = s.current_story_number := by
  unfold remove_bookmark
  rw [hb]
  refine ⟨rfl, rfl, ?_, rfl, rfl, rfl, rfl, rfl, rfl⟩
  intro k hk
  exact erase_count_one_eq_take_drop s.bookmarks b k hcount hk

/-- C9 witness: the spec's end-to-end scenario — removing "1" from the
example returns the first bookmark, leaves only the second and clears the
default project that pointed at the removed OID. -/
theorem c9_remove_bookmark_witness :
    (remove_bookmark exSettings (pys (r"1"))).1 = some bmFirst ∧
    (remove_bookmark exSettings (pys (r"1"))).2.bookmarks = [bmSecond] ∧
    (remove_bookmark exSettings (pys (r"1"))).2.default_project = none := by
  have h := c9_remove_bookmark exSettings (pys (r"1")) bmFirst rfl (by decide)
  refine ⟨h.1, ?_, ?_⟩
  · rw [h.2.1]
    decide
  · rw [h.2.2.2.1]
    decide

/-- C10: `add_bookmark` locates the existing bookmark with the full
resolver, so a digit name within the positional bounds overwrites the OID
of the bookmark at that 1-based position (same length, all names and all
other entries unchanged) rather than appending a bookmark named by the
digits; a new bookmark is appended exactly when the name resolves to
nothing. -/
theorem c10_add_bookmark (s : Settings) (name oid : PyStr) :
    ((pyIsDigit name = true ∧ 1 ≤ pyInt name ∧ pyInt name ≤ 99 ∧
        pyInt name ≤ s.bookmarks.length) →
      (add_bookmark s name oid).bookmarks.length = s.bookmarks.length ∧
      ((add_bookmark s name oid).bookmarks[pyInt name - 1]?).map ProjectBookmark.oid =
        some oid ∧
      (∀ k : Nat, ((add_bookmark s name oid).bookmarks[k]?).map ProjectBookmark.name =
        (s.bookmarks[k]?).map ProjectBookmark.name) ∧
      (∀ k : Nat, k ≠ pyInt name - 1 →
        (add_bookmark s name oid).bookmarks[k]? = s.bookmarks[k]?)) ∧
    (get_bookmark s name = none →
      add_bookmark s name oid =
        { s with bookmarks := s.bookmarks ++ [{ name := name, oid := oid }] }) ∧
    (∀ b, get_bookmark s name = some b →
      (add_bookmark s name oid).bookmarks.length = s.bookmarks.length) := by
  refine ⟨?_, ?_, ?_⟩
  · rintro ⟨hd, hg⟩
    have hidx := gbIdx_digit_pos s name hd hg
    have hab : (add_bookmark s name oid).bookmarks =
        setOid s.bookmarks (pyInt name - 1) oid := by
      unfold add_bookmark
      rw [hidx]
    have hlt : pyInt name - 1 < s.bookmarks.length := by omega
    obtain ⟨b0, hb0⟩ : ∃ b0, s.bookmarks[pyInt name - 1]? = some b0 :=
      ⟨s.bookmarks[pyInt name - 1], List.getElem?_eq_getElem hlt⟩
    refine ⟨by rw [hab]; exact setOid_length _ _ _, ?_, ?_, ?_⟩
    · rw [hab, setOid_getElem_self s.bookmarks (pyInt name - 1) oid b0 hb0]
      rfl
    · intro k
      by_cases hk : k = pyInt name - 1
      · subst hk
        rw [hab, setOid_getElem_self s.bookmarks (pyInt name - 1) oid b0 hb0, hb0]
        rfl
      · rw [hab, setOid_getElem_ne s.bookmarks (pyInt name - 1) oid k hk]
    · intro k hk
      rw [hab, setOid_getElem_ne s.bookmarks (pyInt name - 1) oid k hk]
  · intro h
    have hidx := (get_bookmark_eq_none_iff s name).mp h
    unfold add_bookmark
    rw [hidx]
  · intro b h
    cases hidx : get_bookmark_idx s name with
    | none =>
      rw [(get_bookmark_eq_none_iff s name).mpr hidx] at h
      exact absurd h (by simp)
    | some j =>
      have : (add_bookmark s name oid).bookmarks = setOid s.bookmarks j oid := by
        unfold add_bookmark
        rw [hidx]
      rw [this]
      exact setOid_length _ _ _

/-- C10 witness: on the example settings, adding under the digit name "2"
overwrites the OID of the second bookmark (whose name is "Second", not
"2") without appending, while an unresolvable name "Third" appends. -/
theorem c10_add_bookmark_witness :
    (add_bookmark exSettings (pys (r"2")) (pys (r"Epic:999"))).bookmarks =
      [bmFirst, { name := pys (r"Second"), oid := pys (r"Epic:999") }] ∧
    add_bookmark exSettings (pys (r"Third")) (pys (r"Epic:300")) =
      { exSettings with
        bookmarks := exSettings.bookmarks ++
          [{ name := pys (r"Third"), oid := pys (r"Epic:300") }] } := by
  have h1 := (c10_add_bookmark exSettings (pys (r"2")) (pys (r"Epic:999"))).1
    (by refine ⟨rfl, ?_⟩; decide)
  have h2 := (c10_add_bookmark exSettings (pys (r"Third")) (pys (r"Epic:300"))).2.1 rfl
  refine ⟨?_, h2⟩
  have hlen := h1.1
  decide

end V1cli
